import Mathlib

/-!
# awss3exporter: the S3 writer (`exporter/awss3exporter/s3_writer.go`)

A shallow embedding of `getTimeKey`, `randomInRange`, `getS3Key`,
`getSessionConfig`, `getSession` and `writeBuffer`, followed by the
properties of the object key and of the upload orchestration.

Go strings are Lean strings, Go `int` values are integers (every value
that occurs is far below `2^31`, so machine arithmetic never wraps), a
byte slice is a `List UInt8`.  What the file calls from outside the
package (the clock, the random generator, `compress/gzip`, the AWS
session constructor, the credential wrapper and the uploader) is taken as
a field of `Env`; its result is whatever that field says.
-/

namespace Awss3exporter

/-! ## Decimal formatting (`strconv.Itoa`, the `%d` and `%02d` verbs) -/

/-- The byte `'0' + d` of Go's digit loop. -/
def digitByte (d : Nat) : Char := Char.ofNat (48 + d)

/-- The right-to-left digit loop shared by `strconv` and `fmt`:
`for u >= 10 { buf[i] = '0' + u%10; u /= 10 }; buf[i] = '0' + u`.
The first argument bounds the number of iterations; with a bound of at
least `u` the loop always runs to its end (`formatBits_eq`). -/
def formatBits : Nat → Nat → List Char → List Char
  | 0, u, acc => digitByte (u % 10) :: acc
  | fuel + 1, u, acc =>
    if 10 ≤ u then formatBits fuel (u / 10) (digitByte (u % 10) :: acc)
    else digitByte u :: acc

/-- Decimal digits of a magnitude; `u` iterations always suffice. -/
def formatDec (u : Nat) : List Char := formatBits u u []

/-- Go's `strconv.Itoa`: a minus sign for a negative value, then the digits
of the magnitude. -/
def Itoa (i : Int) : String :=
  if i < 0 then String.mk ('-' :: formatDec i.natAbs) else String.mk (formatDec i.natAbs)

/-- Go's `fmt` integer formatting for the verbs `%d` (`zeroWid = none`) and
`%0Nd` (`zeroWid = some N`): with the zero flag the digit count is raised to
the width, less one when a sign is written; the sign goes in front; what is
still shorter than the width is padded with blanks on the left. -/
def fmtInteger (v : Int) (zeroWid : Option Nat) : String :=
  let negative := decide (v < 0)
  let prec : Nat := match zeroWid with
    | none => 0
    | some w => if negative then w - 1 else w
  let digs := formatDec v.natAbs
  let digs := List.replicate (prec - digs.length) '0' ++ digs
  let signed := if negative then '-' :: digs else digs
  String.mk (List.replicate (zeroWid.getD 0 - signed.length) ' ' ++ signed)

/-! ## Time -/

/-- A `time.Time`, seen through the two observers the writer uses:
`Date()` gives year, month, day and `Clock()` gives hour, minute, second. -/
structure Time where
  year : Int
  month : Int
  day : Int
  hour : Int
  minute : Int
  second : Int
  deriving DecidableEq

/-- Go's `Time.Date`. -/
def Time.Date (t : Time) : Int × Int × Int := (t.year, t.month, t.day)

/-- Go's `Time.Clock`. -/
def Time.Clock (t : Time) : Int × Int × Int := (t.hour, t.minute, t.second)

/-- The ranges in which `Date` and `Clock` report month, day, hour and minute. -/
def Time.Valid (t : Time) : Prop :=
  1 ≤ t.month ∧ t.month ≤ 12 ∧ 1 ≤ t.day ∧ t.day ≤ 31 ∧
  0 ≤ t.hour ∧ t.hour ≤ 23 ∧ 0 ≤ t.minute ∧ t.minute ≤ 59

instance (t : Time) : Decidable t.Valid := by
  unfold Time.Valid; infer_instance

/-! ## Key derivation -/

/-- The S3 time key for a partition setting (`getTimeKey`). -/
def getTimeKey (time : Time) (partition : String) : String :=
  let (year, month, day) := time.Date
  let (hour, minute, _) := time.Clock
  if partition = "hour" then
    "year=" ++ fmtInteger year none ++ "/month=" ++ fmtInteger month (some 2) ++
      "/day=" ++ fmtInteger day (some 2) ++ "/hour=" ++ fmtInteger hour (some 2)
  else
    "year=" ++ fmtInteger year none ++ "/month=" ++ fmtInteger month (some 2) ++
      "/day=" ++ fmtInteger day (some 2) ++ "/hour=" ++ fmtInteger hour (some 2) ++
      "/minute=" ++ fmtInteger minute (some 2)

/-- The source's `randomInRange`: `low + rand.Intn(hi-low)`; `intn k` is what
the generator returns for the call `rand.Intn(k)`. -/
def randomInRange (intn : Int → Int) (low hi : Int) : Int :=
  low + intn (hi - low)

/-- The type `configcompression.Type` is a string type. -/
abbrev CompressionType := String

/-- The constant `configcompression.TypeGzip`. -/
def TypeGzip : CompressionType := "gzip"

/-- The object key (`getS3Key`). -/
def getS3Key (intn : Int → Int) (time : Time) (keyPrefix : String) (partition : String)
    (filePrefix : String) (metadata : String) (fileFormat : String)
    (compression : CompressionType) : String :=
  let timeKey := getTimeKey time partition
  let randomID := randomInRange intn 100000000 999999999
  let suffix := if fileFormat ≠ "" then "." ++ fileFormat else ""
  let s3Key := keyPrefix ++ "/" ++ timeKey ++ "/" ++ filePrefix ++ metadata ++ "_" ++
    Itoa randomID ++ suffix
  if compression = TypeGzip then s3Key ++ ".gz" else s3Key

/-! ## Sessions and the upload -/

/-- A Go `error` value. -/
structure GoError where
  msg : String
  deriving DecidableEq

/-- Modelled from the spec: the `S3Uploader` block of the exporter's `Config`
(declared in config.go, which is not among the sources); the fields are the
ones s3_writer.go reads. -/
structure S3UploaderConfig where
  Region : String
  S3Bucket : String
  S3Prefix : String
  S3Partition : String
  FilePrefix : String
  Endpoint : String
  RoleArn : String
  S3ForcePathStyle : Bool
  DisableSSL : Bool
  Compression : CompressionType
  deriving DecidableEq

/-- Modelled from the spec: the exporter's `Config` (declared in config.go,
which is not among the sources), reduced to the block the writer reads. -/
structure Config where
  S3Uploader : S3UploaderConfig
  deriving DecidableEq

/-- A credentials handle (`*credentials.Credentials`), told apart by a label. -/
structure Credentials where
  label : String
  deriving DecidableEq

/-- The fields of `aws.Config` that the writer sets; `none` is Go's nil. -/
structure AwsConfig where
  Region : Option String
  S3ForcePathStyle : Option Bool
  DisableSSL : Option Bool
  Endpoint : Option String
  Credentials : Option Credentials
  deriving DecidableEq

/-- A `session.Session`: the writer touches only its `Config`. -/
structure Session where
  Config : AwsConfig
  deriving DecidableEq

/-- The `s3manager.UploadInput` that the writer fills in. -/
structure UploadInput where
  Bucket : String
  Key : String
  Body : List UInt8
  ContentEncoding : String
  deriving DecidableEq

/-- How a Go call ends: it returns a value, or it panics (here: a nil
pointer dereference). -/
inductive GoResult (α : Type) where
  | returned (a : α)
  | panicked
  deriving DecidableEq

/-- The `compress/gzip` package as the writer uses it: one `Write` of the
whole slice on a fresh writer over an empty in-memory buffer, then `Close`,
then the buffer is read. -/
structure GzipLib where
  /-- The bytes in the buffer when `Write p` on a fresh writer returns, and
  the error `Write` returns. -/
  write : List UInt8 → List UInt8 × Option GoError
  /-- The bytes `Close` appends to the buffer after `p` was written. -/
  close : List UInt8 → List UInt8

/-- Everything outside the package that one `writeBuffer` call consults. -/
structure Env where
  /-- The result of `time.Now()`. -/
  now : Time
  /-- The result of `rand.Intn(k)`. -/
  intn : Int → Int
  /-- The gzip package. -/
  gzip : GzipLib
  /-- The pair `session.NewSession(cfg)` returns (session pointer, error). -/
  newSession : AwsConfig → Option Session × Option GoError
  /-- The result of `stscreds.NewCredentials(sess, roleArn)` on a non-nil session. -/
  newCredentials : Session → String → Credentials
  /-- The error `uploader.Upload(input)` returns for an uploader built on the session. -/
  upload : Session → UploadInput → Option GoError

/-- The AWS configuration of a session (`getSessionConfig`). -/
def getSessionConfig (config : Config) : AwsConfig :=
  let sessionConfig : AwsConfig :=
    { Region := some config.S3Uploader.Region
      S3ForcePathStyle := some config.S3Uploader.S3ForcePathStyle
      DisableSSL := some config.S3Uploader.DisableSSL
      Endpoint := none
      Credentials := none }
  let endpoint := config.S3Uploader.Endpoint
  if endpoint ≠ "" then { sessionConfig with Endpoint := some endpoint } else sessionConfig

/-- The session constructor (`getSession`).  The error of `NewSession` is not
looked at before the role branch: with a role configured, the session pointer
is handed to `stscreds.NewCredentials` and then dereferenced by
`sess.Config.Credentials = credentials`, which panics on a nil pointer. -/
def getSession (env : Env) (config : Config) (sessionConfig : AwsConfig) :
    GoResult (Option Session × Option GoError) :=
  let (sess, err) := env.newSession sessionConfig
  if config.S3Uploader.RoleArn ≠ "" then
    match sess with
    | none => GoResult.panicked
    | some s =>
      let credentials := env.newCredentials s config.S3Uploader.RoleArn
      GoResult.returned
        (some { s with Config := { s.Config with Credentials := some credentials } }, err)
  else GoResult.returned (sess, err)

/-- What one run of `writeBuffer` did: the upload calls it issued, in order
(each with the session of its uploader), and how it ended. -/
structure Run where
  uploads : List (Session × UploadInput)
  outcome : GoResult (Option GoError)

/-- The encoding marker and upload body that `writeBuffer` prepares before it
asks for a session, or the error of the gzip `Write`. -/
def prepareBody (env : Env) (buf : List UInt8) (config : Config) :
    Except GoError (String × List UInt8) :=
  if config.S3Uploader.Compression = TypeGzip then
    let gzipContents : List UInt8 := []
    let (written, err) := env.gzip.write buf
    let gzipContents := gzipContents ++ written
    match err with
    | some e => Except.error e
    | none =>
      let gzipContents := gzipContents ++ env.gzip.close buf
      Except.ok ("gzip", gzipContents)
  else Except.ok ("", buf)

/-- The upload of one buffer (`writeBuffer`): the key is computed first, then
the body is prepared, then the session is asked for, and only with a session
and no error is the single `Upload` call made; its error is what is returned.
A nil session without an error cannot be handed to `s3manager.NewUploader`
(the client constructor dereferences it), so that case ends in a panic. -/
def writeBuffer (env : Env) (buf : List UInt8) (config : Config) (metadata : String)
    (format : String) : Run :=
  let now := env.now
  let key := getS3Key env.intn now config.S3Uploader.S3Prefix config.S3Uploader.S3Partition
    config.S3Uploader.FilePrefix metadata format config.S3Uploader.Compression
  match prepareBody env buf config with
  | Except.error e => { uploads := [], outcome := GoResult.returned (some e) }
  | Except.ok (encoding, body) =>
    let sessionConfig := getSessionConfig config
    match getSession env config sessionConfig with
    | GoResult.panicked => { uploads := [], outcome := GoResult.panicked }
    | GoResult.returned (_, some err) => { uploads := [], outcome := GoResult.returned (some err) }
    | GoResult.returned (none, none) => { uploads := [], outcome := GoResult.panicked }
    | GoResult.returned (some sess, none) =>
      let input : UploadInput :=
        { Bucket := config.S3Uploader.S3Bucket
          Key := key
          Body := body
          ContentEncoding := encoding }
      match env.upload sess input with
      | some err => { uploads := [(sess, input)], outcome := GoResult.returned (some err) }
      | none => { uploads := [(sess, input)], outcome := GoResult.returned none }

/-! ## Vocabulary of the statements -/

/-- Two decimal digits: a leading zero in front of the numeral of a value
below 10, the numeral itself otherwise. -/
def twoDigits (v : Int) : String := if v < 10 then "0" ++ Itoa v else Itoa v

/-- The components of a key: the pieces between slashes. -/
def components (s : String) : List String := (s.data.splitOn '/').map String.mk

/-- The four components of an hour-partitioned time key. -/
def hourComponents (t : Time) : List String :=
  ["year=" ++ Itoa t.year, "month=" ++ twoDigits t.month, "day=" ++ twoDigits t.day,
    "hour=" ++ twoDigits t.hour]

/-! ## The scenarios of the specification -/

/-- The gzip field of the scenario worlds below.  Their runs are without
compression and never call the package; here every call reports an error and
yields no bytes. -/
def idleGzip : GzipLib :=
  { write := fun _ => ([], some { msg := "gzip: not in use" })
    close := fun _ => [] }

/-- The instant 2024-03-05T09:07:00Z. -/
def scenarioTime : Time :=
  { year := 2024, month := 3, day := 5, hour := 9, minute := 7, second := 0 }

/-- A generator whose draw is 23456789, so that the disambiguator is 123456789. -/
def scenarioDraw : Int → Int := fun _ => 23456789

/-- The configuration of Scenario A for a given compression and role. -/
def scenarioConfig (compression : CompressionType) (roleArn : String) : Config :=
  { S3Uploader :=
      { Region := "eu-west-1"
        S3Bucket := "telemetry"
        S3Prefix := "logs"
        S3Partition := "hour"
        FilePrefix := "otel-"
        Endpoint := ""
        RoleArn := roleArn
        S3ForcePathStyle := false
        DisableSSL := false
        Compression := compression } }

/-- A world in which the session is built and the upload ends with `uploadErr`. -/
def scenarioEnv (uploadErr : Option GoError) : Env :=
  { now := scenarioTime
    intn := scenarioDraw
    gzip := idleGzip
    newSession := fun c => (some { Config := c }, none)
    newCredentials := fun _ roleArn => { label := roleArn }
    upload := fun _ _ => uploadErr }

/-- A world in which `session.NewSession` fails: it returns a nil session
and an error. -/
def failedSessionEnv : Env :=
  { now := scenarioTime
    intn := scenarioDraw
    gzip := idleGzip
    newSession := fun _ => (none, some { msg := "failed to load environment config" })
    newCredentials := fun _ roleArn => { label := roleArn }
    upload := fun _ _ => none }

/-! ## Facts about the decimal formatting -/

theorem digitByte_lt_ten_cases {P : Nat → Prop} (h : ∀ d ∈ List.range 10, P d) :
    ∀ d, d < 10 → P d := fun d hd => h d (List.mem_range.mpr hd)

theorem digitByte_isDigit : ∀ d, d < 10 → (digitByte d).isDigit = true :=
  digitByte_lt_ten_cases (by decide)

theorem digitByte_ne_slash : ∀ d, d < 10 → digitByte d ≠ '/' :=
  digitByte_lt_ten_cases (by decide)

theorem digitByte_ne_z : ∀ d, d < 10 → digitByte d ≠ 'z' :=
  digitByte_lt_ten_cases (by decide)

theorem digitByte_ne_minus : ∀ d, d < 10 → digitByte d ≠ '-' :=
  digitByte_lt_ten_cases (by decide)

theorem digitByte_toNat : ∀ d, d < 10 → (digitByte d).toNat = 48 + d :=
  digitByte_lt_ten_cases (by decide)

theorem digitByte_inj {a b : Nat} (ha : a < 10) (hb : b < 10)
    (h : digitByte a = digitByte b) : a = b := by
  have h1 := digitByte_toNat a ha
  have h2 := digitByte_toNat b hb
  rw [h] at h1
  omega

theorem formatBits_eq (fuel : Nat) : ∀ (u : Nat) (acc : List Char), u ≤ fuel →
    formatBits fuel u acc =
      (if u = 0 then ['0'] else (Nat.digits 10 u).reverse.map digitByte) ++ acc := by
  induction fuel with
  | zero =>
    intro u acc h
    have : u = 0 := by omega
    subst this
    rfl
  | succ fuel ih =>
    intro u acc h
    unfold formatBits
    by_cases h10 : 10 ≤ u
    · rw [if_pos h10, ih (u / 10) _ (by omega)]
      have h0 : u ≠ 0 := by omega
      have hq : u / 10 ≠ 0 := by omega
      have hd : Nat.digits 10 u = (u % 10) :: Nat.digits 10 (u / 10) :=
        Nat.digits_def' (by norm_num) (by omega)
      rw [if_neg h0, if_neg hq, hd]
      simp
    · rw [if_neg h10]
      by_cases h0 : u = 0
      · subst h0; rfl
      · rw [if_neg h0, Nat.digits_of_lt 10 u h0 (by omega)]
        rfl

theorem formatDec_zero : formatDec 0 = ['0'] := rfl

theorem formatDec_pos {u : Nat} (h : u ≠ 0) :
    formatDec u = (Nat.digits 10 u).reverse.map digitByte := by
  unfold formatDec
  rw [formatBits_eq u u [] (le_refl u), if_neg h, List.append_nil]

theorem formatDec_mem {u : Nat} {c : Char} (h : c ∈ formatDec u) :
    ∃ d, d < 10 ∧ c = digitByte d := by
  by_cases h0 : u = 0
  · subst h0
    rw [formatDec_zero, List.mem_singleton] at h
    exact ⟨0, by norm_num, h⟩
  · rw [formatDec_pos h0, List.mem_map] at h
    obtain ⟨d, hd, rfl⟩ := h
    exact ⟨d, Nat.digits_lt_base (by norm_num) (List.mem_reverse.mp hd), rfl⟩

theorem formatDec_length_pos (u : Nat) : 0 < (formatDec u).length := by
  by_cases h0 : u = 0
  · subst h0; simp [formatDec_zero]
  · rw [formatDec_pos h0, List.length_map, List.length_reverse,
      Nat.digits_len 10 u (by norm_num) h0]
    omega

theorem formatDec_ne_nil (u : Nat) : formatDec u ≠ [] :=
  List.ne_nil_of_length_pos (formatDec_length_pos u)

theorem formatDec_length_nine {u : Nat} (hlo : 100000000 ≤ u) (hhi : u < 1000000000) :
    (formatDec u).length = 9 := by
  have h0 : u ≠ 0 := by omega
  rw [formatDec_pos h0, List.length_map, List.length_reverse,
    Nat.digits_len 10 u (by norm_num) h0]
  have : Nat.log 10 u = 8 :=
    (Nat.log_eq_iff (Or.inl (by norm_num))).mpr ⟨by norm_num; exact hlo, by norm_num; exact hhi⟩
  omega

theorem formatDec_head_ne_zero {u : Nat} (h0 : u ≠ 0) : (formatDec u).head? ≠ some '0' := by
  rw [formatDec_pos h0]
  have hne : Nat.digits 10 u ≠ [] := Nat.digits_ne_nil_iff_ne_zero.mpr h0
  have hlast := Nat.getLast_digit_ne_zero 10 h0
  have hlt : (Nat.digits 10 u).getLast hne < 10 :=
    Nat.digits_lt_base (by norm_num) (List.getLast_mem hne)
  rw [List.head?_map, List.head?_reverse, List.getLast?_eq_getLast _ hne]
  simp only [Option.map_some', ne_eq, Option.some.injEq]
  intro hc
  exact hlast (digitByte_inj hlt (by norm_num) hc)

theorem formatDec_injective {u v : Nat} (h : formatDec u = formatDec v) : u = v := by
  by_cases hu : u = 0
  · by_cases hv : v = 0
    · rw [hu, hv]
    · exfalso
      apply formatDec_head_ne_zero hv
      rw [← h, hu]; rfl
  · by_cases hv : v = 0
    · exfalso
      apply formatDec_head_ne_zero hu
      rw [h, hv]; rfl
    · rw [formatDec_pos hu, formatDec_pos hv] at h
      have hinj : ∀ (l₁ l₂ : List Nat), (∀ d ∈ l₁, d < 10) → (∀ d ∈ l₂, d < 10) →
          l₁.map digitByte = l₂.map digitByte → l₁ = l₂ := by
        intro l₁
        induction l₁ with
        | nil => intro l₂ _ _ h; cases l₂ with
          | nil => rfl
          | cons b l₂ => simp at h
        | cons a l₁ ih =>
          intro l₂ h1 h2 h
          cases l₂ with
          | nil => simp at h
          | cons b l₂ =>
            simp only [List.map_cons, List.cons.injEq] at h
            have hab := digitByte_inj (h1 a (List.mem_cons_self _ _)) (h2 b (List.mem_cons_self _ _)) h.1
            rw [hab, ih l₂ (fun d hd => h1 d (List.mem_cons_of_mem _ hd))
              (fun d hd => h2 d (List.mem_cons_of_mem _ hd)) h.2]
      have := hinj _ _ (fun d hd => Nat.digits_lt_base (by norm_num) (List.mem_reverse.mp hd))
        (fun d hd => Nat.digits_lt_base (by norm_num) (List.mem_reverse.mp hd)) h
      exact Nat.digits_inj_iff.mp (List.reverse_injective this)

theorem Itoa_data (i : Int) :
    (Itoa i).data = if i < 0 then '-' :: formatDec i.natAbs else formatDec i.natAbs := by
  unfold Itoa
  split <;> rfl

theorem Itoa_last_digit (i : Int) :
    ∃ (l : List Char) (d : Nat), d < 10 ∧ (Itoa i).data = l ++ [digitByte d] := by
  obtain ⟨l, c, hlc⟩ : ∃ l c, formatDec i.natAbs = l ++ [c] :=
    ⟨_, _, (List.dropLast_append_getLast (formatDec_ne_nil i.natAbs)).symm⟩
  have hc : c ∈ formatDec i.natAbs := by rw [hlc]; simp
  obtain ⟨d, hd, rfl⟩ := formatDec_mem hc
  rw [Itoa_data, hlc]
  by_cases hi : i < 0
  · exact ⟨'-' :: l, d, hd, by rw [if_pos hi]; rfl⟩
  · exact ⟨l, d, hd, by rw [if_neg hi]⟩

theorem Itoa_injective {a b : Int} (h : Itoa a = Itoa b) : a = b := by
  have hd : (Itoa a).data = (Itoa b).data := by rw [h]
  rw [Itoa_data, Itoa_data] at hd
  have hminus : ∀ (u v : Nat), '-' :: formatDec u ≠ formatDec v := by
    intro u v he
    have hm : '-' ∈ formatDec v := by rw [← he]; simp
    obtain ⟨d, hd, hc⟩ := formatDec_mem hm
    exact digitByte_ne_minus d hd hc.symm
  by_cases ha : a < 0 <;> by_cases hb : b < 0
  · rw [if_pos ha, if_pos hb] at hd
    have := formatDec_injective (List.cons.inj hd).2
    omega
  · rw [if_pos ha, if_neg hb] at hd
    exact absurd hd (hminus _ _)
  · rw [if_neg ha, if_pos hb] at hd
    exact absurd hd.symm (hminus _ _)
  · rw [if_neg ha, if_neg hb] at hd
    have := formatDec_injective hd
    omega

theorem fmtInteger_none (v : Int) : fmtInteger v none = Itoa v := by
  unfold fmtInteger Itoa
  by_cases hv : v < 0 <;> simp [hv]

/-- The digits-and-sign alphabet of `fmtInteger`: no character is a slash. -/
theorem fmtInteger_no_slash (v : Int) (w : Option Nat) : '/' ∉ (fmtInteger v w).data := by
  unfold fmtInteger
  intro hmem
  have hdig : '/' ∉ formatDec v.natAbs := by
    intro h
    obtain ⟨d, hd, hc⟩ := formatDec_mem h
    exact digitByte_ne_slash d hd hc.symm
  simp only [List.mem_append, List.mem_replicate] at hmem
  by_cases hv : v < 0
  · simp [hv, List.mem_replicate, hdig] at hmem
  · simp [hv, List.mem_replicate, hdig] at hmem

theorem fmtInteger_two (v : Int) (h0 : 0 ≤ v) (h1 : v < 100) :
    fmtInteger v (some 2) = twoDigits v ∧ (twoDigits v).length = 2 ∧
      ∀ c ∈ (twoDigits v).data, c.isDigit = true := by
  interval_cases v <;> decide

theorem getS3Key_unfold (intn : Int → Int) (t : Time) (keyPrefix partition filePrefix metadata
    fileFormat : String) (compression : CompressionType) :
    getS3Key intn t keyPrefix partition filePrefix metadata fileFormat compression =
      keyPrefix ++ "/" ++ getTimeKey t partition ++ "/" ++ filePrefix ++ metadata ++ "_" ++
        Itoa (randomInRange intn 100000000 999999999) ++
        (if fileFormat = "" then "" else "." ++ fileFormat) ++
        (if compression = TypeGzip then ".gz" else "") := by
  unfold getS3Key
  by_cases hf : fileFormat = "" <;> by_cases hc : compression = TypeGzip <;>
    simp [hf, hc, String.ext_iff]

theorem frame_cancel (p a b s : String) : p ++ a ++ s = p ++ b ++ s ↔ a = b := by
  simp [String.ext_iff]

theorem getTimeKey_padded (t : Time) (partition : String) (hv : t.Valid) :
    getTimeKey t partition =
      "year=" ++ Itoa t.year ++ "/month=" ++ twoDigits t.month ++ "/day=" ++ twoDigits t.day ++
        "/hour=" ++ twoDigits t.hour ++
        (if partition = "hour" then "" else "/minute=" ++ twoDigits t.minute) := by
  obtain ⟨hm1, hm2, hd1, hd2, hh1, hh2, hn1, hn2⟩ := hv
  unfold getTimeKey Time.Date Time.Clock
  simp only [fmtInteger_none, (fmtInteger_two t.month (by omega) (by omega)).1,
    (fmtInteger_two t.day (by omega) (by omega)).1,
    (fmtInteger_two t.hour hh1 (by omega)).1, (fmtInteger_two t.minute hn1 (by omega)).1]
  by_cases hp : partition = "hour"
  · simp [hp]
  · simp [hp, String.append_assoc]

theorem components_single (a : String) (ha : '/' ∉ a.data) : components a = [a] := by
  unfold components List.splitOn
  rw [List.splitOnP_eq_single]
  · rfl
  · intro x hx hxe
    have : x = '/' := by simpa using hxe
    exact ha (this ▸ hx)

theorem components_cons (a b : String) (ha : '/' ∉ a.data) :
    components (a ++ "/" ++ b) = a :: components b := by
  unfold components List.splitOn
  have hd : (a ++ "/" ++ b).data = a.data ++ '/' :: b.data := by
    simp [String.data_append]
  rw [hd, List.splitOnP_first]
  · rfl
  · intro x hx hxe
    have : x = '/' := by simpa using hxe
    exact ha (this ▸ hx)
  · simp

theorem Itoa_no_slash (v : Int) : '/' ∉ (Itoa v).data := by
  rw [← fmtInteger_none]; exact fmtInteger_no_slash v none

theorem twoDigits_no_slash (v : Int) (h0 : 0 ≤ v) (h1 : v < 100) : '/' ∉ (twoDigits v).data := by
  rw [← (fmtInteger_two v h0 h1).1]; exact fmtInteger_no_slash v (some 2)

theorem label_no_slash (l v : String) (hl : '/' ∉ l.data) (hv : '/' ∉ v.data) :
    '/' ∉ (l ++ v).data := by
  simp [String.data_append, hl, hv]

theorem getTimeKey_hour_components (t : Time) (hv : t.Valid) :
    components (getTimeKey t "hour") = hourComponents t := by
  have e : getTimeKey t "hour" = ("year=" ++ Itoa t.year) ++ "/" ++ (("month=" ++ twoDigits t.month)
      ++ "/" ++ (("day=" ++ twoDigits t.day) ++ "/" ++ ("hour=" ++ twoDigits t.hour))) := by
    rw [getTimeKey_padded t "hour" hv]
    simp [String.ext_iff]
  obtain ⟨hm1, hm2, hd1, hd2, hh1, hh2, hn1, hn2⟩ := hv
  rw [e, components_cons _ _ (label_no_slash _ _ (by decide) (Itoa_no_slash _)),
    components_cons _ _ (label_no_slash _ _ (by decide) (twoDigits_no_slash _ (by omega) (by omega))),
    components_cons _ _ (label_no_slash _ _ (by decide) (twoDigits_no_slash _ (by omega) (by omega))),
    components_single _ (label_no_slash _ _ (by decide) (twoDigits_no_slash _ hh1 (by omega)))]
  rfl

theorem getTimeKey_minute_components (t : Time) (partition : String) (hv : t.Valid)
    (hp : partition ≠ "hour") :
    components (getTimeKey t partition) = hourComponents t ++ ["minute=" ++ twoDigits t.minute] := by
  have e : getTimeKey t partition = ("year=" ++ Itoa t.year) ++ "/" ++
      (("month=" ++ twoDigits t.month) ++ "/" ++ (("day=" ++ twoDigits t.day) ++ "/" ++
        (("hour=" ++ twoDigits t.hour) ++ "/" ++ ("minute=" ++ twoDigits t.minute)))) := by
    rw [getTimeKey_padded t partition hv]
    simp [String.ext_iff, hp]
  obtain ⟨hm1, hm2, hd1, hd2, hh1, hh2, hn1, hn2⟩ := hv
  rw [e, components_cons _ _ (label_no_slash _ _ (by decide) (Itoa_no_slash _)),
    components_cons _ _ (label_no_slash _ _ (by decide) (twoDigits_no_slash _ (by omega) (by omega))),
    components_cons _ _ (label_no_slash _ _ (by decide) (twoDigits_no_slash _ (by omega) (by omega))),
    components_cons _ _ (label_no_slash _ _ (by decide) (twoDigits_no_slash _ hh1 (by omega))),
    components_single _ (label_no_slash _ _ (by decide) (twoDigits_no_slash _ hn1 (by omega)))]
  rfl

theorem gz_not_suffix_of_digit (X : List Char) (d : Nat) (hd : d < 10) :
    ¬ ['.', 'g', 'z'] <:+ X ++ [digitByte d] := by
  rintro ⟨t, ht⟩
  have h := congrArg List.getLast? ht
  simp at h
  exact digitByte_ne_z d hd h.symm

theorem gz_not_suffix_short (Y : List Char) (c : Char) : ¬ ['.', 'g', 'z'] <:+ Y ++ ['.', c] := by
  rintro ⟨t, ht⟩
  have h := congrArg List.reverse ht
  simp at h

theorem suffix_append_iff (s X Y : List Char) (h : s.length ≤ X.length) :
    s <:+ Y ++ X ↔ s <:+ X :=
  ⟨fun hs => List.suffix_of_suffix_length_le hs (List.suffix_append Y X) h,
   fun hs => hs.trans (List.suffix_append Y X)⟩

theorem gz_suffix_format (Y : List Char) (ff : String) (hff : ff ≠ "") :
    ['.', 'g', 'z'] <:+ Y ++ ("." ++ ff).data ↔ ['.', 'g', 'z'] <:+ ("." ++ ff).data := by
  have hne : ff.data ≠ [] := fun h => hff (String.ext h)
  obtain ⟨c, rest, hc⟩ := List.exists_cons_of_ne_nil hne
  have hd : ("." ++ ff).data = '.' :: c :: rest := by
    rw [String.data_append, hc]; rfl
  rw [hd]
  cases rest with
  | nil =>
    constructor
    · intro h; exact absurd h (gz_not_suffix_short Y c)
    · intro h; exact absurd h.length_le (by simp)
  | cons c2 rest => exact suffix_append_iff _ _ _ (by simp)

theorem getS3Key_gz_iff (intn : Int → Int) (t : Time) (keyPrefix partition filePrefix metadata
    fileFormat : String) (compression : CompressionType) (hc : compression ≠ TypeGzip) :
    ".gz".data <:+
        (getS3Key intn t keyPrefix partition filePrefix metadata fileFormat compression).data ↔
      ".gz".data <:+ ("." ++ fileFormat).data := by
  rw [getS3Key_unfold, if_neg hc, String.append_empty]
  obtain ⟨l, d, hd, hl⟩ := Itoa_last_digit (randomInRange intn 100000000 999999999)
  have hgz : ".gz".data = ['.', 'g', 'z'] := rfl
  rw [hgz]
  by_cases hf : fileFormat = ""
  · subst hf
    rw [if_pos rfl, String.append_empty, String.data_append, hl, ← List.append_assoc]
    constructor
    · intro h
      exact absurd h (gz_not_suffix_of_digit _ d hd)
    · intro h
      exact absurd h.length_le (by decide)
  · rw [if_neg hf, String.data_append]
    exact gz_suffix_format _ fileFormat hf

theorem prepareBody_plain (env : Env) (buf : List UInt8) (config : Config)
    (h : config.S3Uploader.Compression ≠ TypeGzip) :
    prepareBody env buf config = Except.ok ("", buf) := by
  unfold prepareBody
  rw [if_neg h]

theorem prepareBody_gzip (env : Env) (buf : List UInt8) (config : Config)
    (h : config.S3Uploader.Compression = TypeGzip) (hw : (env.gzip.write buf).2 = none) :
    prepareBody env buf config =
      Except.ok ("gzip", (env.gzip.write buf).1 ++ env.gzip.close buf) := by
  unfold prepareBody
  rw [if_pos h]
  rcases hwe : env.gzip.write buf with ⟨w, e⟩
  rw [hwe] at hw
  simp only at hw
  subst hw
  simp

theorem getSession_of_session (env : Env) (config : Config) (sc : AwsConfig) (s : Session)
    (e : Option GoError) (hs : env.newSession sc = (some s, e)) :
    ∃ sess, getSession env config sc = GoResult.returned (some sess, e) := by
  unfold getSession
  rw [hs]
  by_cases hr : config.S3Uploader.RoleArn = ""
  · exact ⟨s, by simp [hr]⟩
  · exact ⟨{ s with Config := { s.Config with
      Credentials := some (env.newCredentials s config.S3Uploader.RoleArn) } }, by simp [hr]⟩

theorem writeBuffer_of_prepared (env : Env) (buf : List UInt8) (config : Config)
    (metadata format : String) (s : Session) (encoding : String) (body : List UInt8)
    (hprep : prepareBody env buf config = Except.ok (encoding, body))
    (hsess : env.newSession (getSessionConfig config) = (some s, none)) :
    ∃ sess,
      (writeBuffer env buf config metadata format).uploads =
        [(sess, { Bucket := config.S3Uploader.S3Bucket
                  Key := getS3Key env.intn env.now config.S3Uploader.S3Prefix
                    config.S3Uploader.S3Partition config.S3Uploader.FilePrefix metadata format
                    config.S3Uploader.Compression
                  Body := body
                  ContentEncoding := encoding })] ∧
      (writeBuffer env buf config metadata format).outcome =
        GoResult.returned (env.upload sess
          { Bucket := config.S3Uploader.S3Bucket
            Key := getS3Key env.intn env.now config.S3Uploader.S3Prefix
              config.S3Uploader.S3Partition config.S3Uploader.FilePrefix metadata format
              config.S3Uploader.Compression
            Body := body
            ContentEncoding := encoding }) := by
  obtain ⟨sess, hg⟩ := getSession_of_session env config _ s none hsess
  refine ⟨sess, ?_⟩
  unfold writeBuffer
  simp only [hprep, hg]
  cases hu : env.upload sess _ <;> simp [hu]

theorem writeBuffer_no_upload_on_write_error (env : Env) (buf : List UInt8) (config : Config)
    (metadata format : String) (e : GoError)
    (h : config.S3Uploader.Compression = TypeGzip) (hw : (env.gzip.write buf).2 = some e) :
    writeBuffer env buf config metadata format =
      { uploads := [], outcome := GoResult.returned (some e) } := by
  unfold writeBuffer prepareBody
  rw [if_pos h]
  rcases hwe : env.gzip.write buf with ⟨w, e2⟩
  rw [hwe] at hw
  simp only at hw
  subst hw
  simp

/-! ## The object key -/

/-- C1: the key that `getS3Key` returns is exactly the key prefix, a slash,
the time key, a slash, the file prefix, the metadata, an underscore, the
decimal text of the disambiguator, then a dot and the file format when the
format is non-empty, then ".gz" when the compression is gzip. -/
theorem getS3Key_format (intn : Int → Int) (t : Time) (keyPrefix partition filePrefix metadata
    fileFormat : String) (compression : CompressionType) :
    getS3Key intn t keyPrefix partition filePrefix metadata fileFormat compression =
      keyPrefix ++ "/" ++ getTimeKey t partition ++ "/" ++ filePrefix ++ metadata ++ "_" ++
        Itoa (randomInRange intn 100000000 999999999) ++
        (if fileFormat = "" then "" else "." ++ fileFormat) ++
        (if compression = TypeGzip then ".gz" else "") :=
  getS3Key_unfold intn t keyPrefix partition filePrefix metadata fileFormat compression

/-- Scenario A: 2024-03-05T09:07:00Z, partition "hour", prefix "logs", file
prefix "otel-", metadata "trace", format "json", no compression. -/
theorem getS3Key_format_scenarioA :
    getS3Key scenarioDraw scenarioTime "logs" "hour" "otel-" "trace" "json" "none" =
      "logs/year=2024/month=03/day=05/hour=09/otel-trace_123456789.json" :=
  (getS3Key_format scenarioDraw scenarioTime "logs" "hour" "otel-" "trace" "json" "none").trans
    (by decide)

theorem minute_label_absent (x : String) :
    ∀ l ∈ ["year=", "month=", "day=", "hour="], ¬ "minute=".data <+: (l ++ x).data := by
  intro l hl
  rintro ⟨r, hr⟩
  have h2 := congrArg (List.take 2) hr
  simp only [List.mem_cons, List.mem_singleton, List.not_mem_nil, or_false] at hl
  rcases hl with rfl | rfl | rfl | rfl <;>
    · rw [String.data_append] at h2
      revert h2
      simp [List.take]

/-- C2: for a valid timestamp, the time key of partition "hour" splits on
slashes into exactly the four components year, month, day, hour, in that
order, none of which starts with "minute="; for every other partition value
the time key is the hour key followed by "/minute=mm", it has exactly five
components, and it is the key of partition "minute". -/
theorem getTimeKey_partition_components (t : Time) (partition : String) (hv : t.Valid) :
    (partition = "hour" →
      components (getTimeKey t partition) =
          ["year=" ++ Itoa t.year, "month=" ++ twoDigits t.month, "day=" ++ twoDigits t.day,
            "hour=" ++ twoDigits t.hour] ∧
        (components (getTimeKey t partition)).length = 4 ∧
        ∀ c ∈ components (getTimeKey t partition), ¬ "minute=".data <+: c.data) ∧
    (partition ≠ "hour" →
      getTimeKey t partition = getTimeKey t "hour" ++ "/minute=" ++ twoDigits t.minute ∧
        components (getTimeKey t partition) =
          components (getTimeKey t "hour") ++ ["minute=" ++ twoDigits t.minute] ∧
        (components (getTimeKey t partition)).length = 5 ∧
        getTimeKey t partition = getTimeKey t "minute") := by
  have hh := getTimeKey_hour_components t hv
  constructor
  · rintro rfl
    refine ⟨hh, by rw [hh]; rfl, ?_⟩
    rw [hh]
    intro c hc
    simp only [hourComponents, List.mem_cons, List.mem_singleton, List.not_mem_nil,
      or_false] at hc
    rcases hc with rfl | rfl | rfl | rfl
    · exact minute_label_absent _ "year=" (by simp)
    · exact minute_label_absent _ "month=" (by simp)
    · exact minute_label_absent _ "day=" (by simp)
    · exact minute_label_absent _ "hour=" (by simp)
  · intro hp
    have hm := getTimeKey_minute_components t partition hv hp
    refine ⟨?_, by rw [hm, hh], by rw [hm]; rfl, ?_⟩
    · rw [getTimeKey_padded t partition hv, getTimeKey_padded t "hour" hv]
      simp [hp, String.append_assoc]
    · rw [getTimeKey_padded t partition hv, getTimeKey_padded t "minute" hv]
      simp [hp]

/-- Scenario B: at 09:07 the partition "minute" gives the hour key followed by
"/minute=07", five components in all. -/
theorem getTimeKey_partition_components_scenarioB :
    scenarioTime.Valid ∧ "minute" ≠ "hour" ∧
      getTimeKey scenarioTime "minute" = "year=2024/month=03/day=05/hour=09/minute=07" ∧
      components (getTimeKey scenarioTime "minute") =
        ["year=2024", "month=03", "day=05", "hour=09", "minute=07"] :=
  ⟨by decide, by decide,
    ((getTimeKey_partition_components scenarioTime "minute" (by decide)).2 (by decide)).1.trans
      (by decide),
    ((getTimeKey_partition_components scenarioTime "minute" (by decide)).2 (by decide)).2.1.trans
      (by decide)⟩

/-- C3: whenever `rand.Intn(899999999)` returns a value in its range, the
disambiguator is 100000000 plus that value, it lies in
[100000000, 999999999), and its decimal text, the one `getS3Key` puts after the
underscore, has exactly nine characters, all of them decimal digits (so no
sign), the first of which is not a zero. -/
theorem randomInRange_nine_digits (intn : Int → Int) (h0 : 0 ≤ intn 899999999)
    (h1 : intn 899999999 < 899999999) :
    randomInRange intn 100000000 999999999 = 100000000 + intn 899999999 ∧
      100000000 ≤ randomInRange intn 100000000 999999999 ∧
      randomInRange intn 100000000 999999999 < 999999999 ∧
      (Itoa (randomInRange intn 100000000 999999999)).length = 9 ∧
      (∀ c ∈ (Itoa (randomInRange intn 100000000 999999999)).data, c.isDigit = true) ∧
      (Itoa (randomInRange intn 100000000 999999999)).data.head? ≠ some '0' ∧
      ∀ (t : Time) (keyPrefix partition filePrefix metadata fileFormat : String)
        (compression : CompressionType),
        getS3Key intn t keyPrefix partition filePrefix metadata fileFormat compression =
          keyPrefix ++ "/" ++ getTimeKey t partition ++ "/" ++ filePrefix ++ metadata ++ "_" ++
            Itoa (100000000 + intn 899999999) ++
            (if fileFormat = "" then "" else "." ++ fileFormat) ++
            (if compression = TypeGzip then ".gz" else "") := by
  have hid : randomInRange intn 100000000 999999999 = 100000000 + intn 899999999 := by
    unfold randomInRange
    norm_num
  have hnn : ¬ (100000000 + intn 899999999 < 0) := by omega
  have hdata : (Itoa (100000000 + intn 899999999)).data =
      formatDec (100000000 + intn 899999999).natAbs := by
    rw [Itoa_data, if_neg hnn]
  refine ⟨hid, by omega, by omega, ?_, ?_, ?_, ?_⟩
  · rw [hid]
    show (Itoa (100000000 + intn 899999999)).data.length = 9
    rw [hdata]
    exact formatDec_length_nine (by omega) (by omega)
  · rw [hid, hdata]
    intro c hc
    obtain ⟨d, hd, rfl⟩ := formatDec_mem hc
    exact digitByte_isDigit d hd
  · rw [hid, hdata]
    exact formatDec_head_ne_zero (by omega)
  · intro t keyPrefix partition filePrefix metadata fileFormat compression
    rw [getS3Key_unfold, hid]

/-- A draw of 23456789 gives the disambiguator 123456789, written "123456789". -/
theorem randomInRange_nine_digits_witness :
    (0 ≤ scenarioDraw 899999999 ∧ scenarioDraw 899999999 < 899999999) ∧
      randomInRange scenarioDraw 100000000 999999999 = 100000000 + scenarioDraw 899999999 ∧
      (Itoa (randomInRange scenarioDraw 100000000 999999999)).length = 9 ∧
      Itoa (randomInRange scenarioDraw 100000000 999999999) = "123456789" :=
  ⟨by decide,
    (randomInRange_nine_digits scenarioDraw (by decide) (by decide)).1,
    (randomInRange_nine_digits scenarioDraw (by decide) (by decide)).2.2.2.1,
    by decide⟩

/-- C4, as amended: with gzip compression the key ends in ".gz" whatever the
file format is; with any other compression value the key ends in ".gz"
exactly when the format suffix, a dot followed by the file format, ends in
".gz", which never happens for an empty file format. -/
theorem getS3Key_gz_suffix (intn : Int → Int) (t : Time) (keyPrefix partition filePrefix metadata
    fileFormat : String) (compression : CompressionType) :
    (compression = TypeGzip →
      ".gz".data <:+
        (getS3Key intn t keyPrefix partition filePrefix metadata fileFormat compression).data) ∧
    (compression ≠ TypeGzip →
      ((".gz".data <:+
          (getS3Key intn t keyPrefix partition filePrefix metadata fileFormat compression).data ↔
        ".gz".data <:+ ("." ++ fileFormat).data) ∧
       (fileFormat = "" → ¬ ".gz".data <:+
          (getS3Key intn t keyPrefix partition filePrefix metadata fileFormat
            compression).data))) := by
  constructor
  · intro hc
    rw [getS3Key_unfold, if_pos hc, String.data_append]
    exact List.suffix_append _ _
  · intro hc
    have hiff := getS3Key_gz_iff intn t keyPrefix partition filePrefix metadata fileFormat
      compression hc
    refine ⟨hiff, ?_⟩
    rintro rfl h
    exact absurd (hiff.mp h).length_le (by decide)

/-- Scenario C for the key: with gzip the key of Scenario A ends in ".gz";
without compression and with format "json" it does not. -/
theorem getS3Key_gz_suffix_witness :
    ".gz".data <:+
        (getS3Key scenarioDraw scenarioTime "logs" "hour" "otel-" "trace" "json" "gzip").data ∧
      ¬ ".gz".data <:+
        (getS3Key scenarioDraw scenarioTime "logs" "hour" "otel-" "trace" "json" "none").data :=
  ⟨(getS3Key_gz_suffix scenarioDraw scenarioTime "logs" "hour" "otel-" "trace" "json" "gzip").1
      (by decide),
    fun h => absurd
      (((getS3Key_gz_suffix scenarioDraw scenarioTime "logs" "hour" "otel-" "trace" "json"
        "none").2 (by decide)).1.mp h) (by decide)⟩

/-- C4 as stated fails: without compression, the file format "gz" gives a key
that ends in ".gz". -/
theorem getS3Key_uncompressed_gz_ending :
    ("none" : CompressionType) ≠ TypeGzip ∧
      getS3Key scenarioDraw scenarioTime "logs" "hour" "otel-" "trace" "gz" "none" =
        "logs/year=2024/month=03/day=05/hour=09/otel-trace_123456789.gz" ∧
      ".gz".data <:+
        (getS3Key scenarioDraw scenarioTime "logs" "hour" "otel-" "trace" "gz" "none").data := by
  refine ⟨by decide, by decide, ?_⟩
  exact ⟨"logs/year=2024/month=03/day=05/hour=09/otel-trace_123456789".data, by decide⟩

/-- C8: for a timestamp with month, day, hour and minute in their ranges, the
time key writes the year as its plain decimal numeral and month, day, hour
and (unless the partition is "hour") minute as two decimal digits each, with
a leading zero below 10. -/
theorem getTimeKey_two_digit_fields (t : Time) (partition : String) (hv : t.Valid) :
    getTimeKey t partition =
        "year=" ++ Itoa t.year ++ "/month=" ++ twoDigits t.month ++ "/day=" ++ twoDigits t.day ++
          "/hour=" ++ twoDigits t.hour ++
          (if partition = "hour" then "" else "/minute=" ++ twoDigits t.minute) ∧
      ∀ v ∈ [t.month, t.day, t.hour, t.minute],
        (twoDigits v).length = 2 ∧ (∀ c ∈ (twoDigits v).data, c.isDigit = true) ∧
          (v < 10 → twoDigits v = "0" ++ Itoa v) := by
  refine ⟨getTimeKey_padded t partition hv, ?_⟩
  obtain ⟨hm1, hm2, hd1, hd2, hh1, hh2, hn1, hn2⟩ := hv
  intro v hmem
  have hr : 0 ≤ v ∧ v < 100 := by
    simp only [List.mem_cons, List.mem_singleton, List.not_mem_nil, or_false] at hmem
    rcases hmem with rfl | rfl | rfl | rfl <;> omega
  have h2 := fmtInteger_two v hr.1 hr.2
  refine ⟨h2.2.1, h2.2.2, ?_⟩
  intro hlt
  unfold twoDigits
  rw [if_pos hlt]

/-- The year 987 is written "year=987", March "month=03", the fifth day
"day=05", nine hours "hour=09", seven minutes "minute=07". -/
theorem getTimeKey_two_digit_fields_witness :
    Time.Valid { scenarioTime with year := 987 } ∧
      getTimeKey { scenarioTime with year := 987 } "minute" =
        "year=987/month=03/day=05/hour=09/minute=07" :=
  ⟨by decide,
    (getTimeKey_two_digit_fields { scenarioTime with year := 987 } "minute" (by decide)).1.trans
      (by decide)⟩

/-- C10: with everything else held fixed, two keys are equal exactly when their
disambiguators are equal (for all draws, so in particular for draws in
[100000000, 999999999)). -/
theorem getS3Key_injective_in_draw (intn₁ intn₂ : Int → Int) (t : Time) (keyPrefix partition
    filePrefix metadata fileFormat : String) (compression : CompressionType) :
    getS3Key intn₁ t keyPrefix partition filePrefix metadata fileFormat compression =
        getS3Key intn₂ t keyPrefix partition filePrefix metadata fileFormat compression ↔
      randomInRange intn₁ 100000000 999999999 = randomInRange intn₂ 100000000 999999999 := by
  constructor
  · intro h
    rw [getS3Key_unfold, getS3Key_unfold, String.append_assoc (_ ++ Itoa _),
      String.append_assoc (_ ++ Itoa _), frame_cancel] at h
    exact Itoa_injective h
  · intro h
    rw [getS3Key_unfold, getS3Key_unfold, h]

/-! ## The upload -/

theorem getSession_nil_session_with_role (env : Env) (config : Config) (sc : AwsConfig)
    (e : Option GoError) (hs : env.newSession sc = (none, e))
    (hr : config.S3Uploader.RoleArn ≠ "") :
    getSession env config sc = GoResult.panicked := by
  unfold getSession
  rw [hs]
  simp [hr]

theorem getSession_without_role (env : Env) (config : Config) (sc : AwsConfig)
    (hr : config.S3Uploader.RoleArn = "") :
    getSession env config sc = GoResult.returned (env.newSession sc) := by
  unfold getSession
  simp [hr]

theorem writeBuffer_session_error_without_role (env : Env) (buf : List UInt8) (config : Config)
    (metadata format : String) (e : GoError) (encoding : String) (body : List UInt8)
    (hprep : prepareBody env buf config = Except.ok (encoding, body))
    (hr : config.S3Uploader.RoleArn = "")
    (hs : env.newSession (getSessionConfig config) = (none, some e)) :
    writeBuffer env buf config metadata format =
      { uploads := [], outcome := GoResult.returned (some e) } := by
  unfold writeBuffer
  simp only [hprep, getSession_without_role env config _ hr, hs]

/-- C5, the failing input: when `session.NewSession` fails (nil session, error
e) and a role is configured, `getSession` panics on the nil session instead of
returning e, and so does `writeBuffer`; without a role the same failure is
returned as e and nothing is uploaded. -/
theorem getSession_failed_session_with_role :
    getSession failedSessionEnv (scenarioConfig "none" "arn:aws:iam::123456789012:role/exporter")
        (getSessionConfig (scenarioConfig "none" "arn:aws:iam::123456789012:role/exporter")) =
        GoResult.panicked ∧
      (writeBuffer failedSessionEnv [104, 105]
        (scenarioConfig "none" "arn:aws:iam::123456789012:role/exporter") "trace" "json").outcome =
        GoResult.panicked ∧
      (writeBuffer failedSessionEnv [104, 105] (scenarioConfig "none" "") "trace" "json").outcome =
        GoResult.returned (some { msg := "failed to load environment config" }) ∧
      (writeBuffer failedSessionEnv [104, 105] (scenarioConfig "none" "") "trace" "json").uploads =
        [] := by
  refine ⟨rfl, rfl, rfl, rfl⟩

/-- C6: when the session is built, every upload call that `writeBuffer` issues
carries the configured bucket, the key `getS3Key` computes from the captured
time and draw, the encoding "gzip" under gzip compression and "" otherwise,
and, without gzip, the buffer itself as body; and exactly one call is issued
unless the gzip writer reported an error. -/
theorem writeBuffer_upload_input (env : Env) (buf : List UInt8) (config : Config)
    (metadata format : String) (s : Session)
    (hsess : env.newSession (getSessionConfig config) = (some s, none)) :
    (∀ call ∈ (writeBuffer env buf config metadata format).uploads,
        call.2.Bucket = config.S3Uploader.S3Bucket ∧
        call.2.Key = getS3Key env.intn env.now config.S3Uploader.S3Prefix
          config.S3Uploader.S3Partition config.S3Uploader.FilePrefix metadata format
          config.S3Uploader.Compression ∧
        call.2.ContentEncoding =
          (if config.S3Uploader.Compression = TypeGzip then "gzip" else "") ∧
        (config.S3Uploader.Compression ≠ TypeGzip → call.2.Body = buf)) ∧
      ((config.S3Uploader.Compression = TypeGzip → (env.gzip.write buf).2 = none) →
        (writeBuffer env buf config metadata format).uploads.length = 1) := by
  by_cases hc : config.S3Uploader.Compression = TypeGzip
  · cases hw : (env.gzip.write buf).2 with
    | none =>
      obtain ⟨sess, hu, _⟩ := writeBuffer_of_prepared env buf config metadata format s _ _
        (prepareBody_gzip env buf config hc hw) hsess
      rw [hu]
      refine ⟨?_, fun _ => rfl⟩
      intro call hcall
      rw [List.mem_singleton] at hcall
      subst hcall
      exact ⟨rfl, rfl, by simp [hc], fun h => absurd hc h⟩
    | some e =>
      rw [writeBuffer_no_upload_on_write_error env buf config metadata format e hc hw]
      refine ⟨fun call hcall => absurd hcall (List.not_mem_nil _), fun h => ?_⟩
      exact absurd (h hc) (by simp)
  · obtain ⟨sess, hu, _⟩ := writeBuffer_of_prepared env buf config metadata format s _ _
      (prepareBody_plain env buf config hc) hsess
    rw [hu]
    refine ⟨?_, fun _ => rfl⟩
    intro call hcall
    rw [List.mem_singleton] at hcall
    subst hcall
    exact ⟨rfl, rfl, by simp [hc], fun _ => rfl⟩

/-- Scenario A, uploaded: one call, to the bucket "telemetry", under the key of
Scenario A, with no content encoding and the buffer as body. -/
theorem writeBuffer_upload_input_witness :
    (scenarioEnv none).newSession (getSessionConfig (scenarioConfig "none" "")) =
        (some { Config := getSessionConfig (scenarioConfig "none" "") }, none) ∧
      (writeBuffer (scenarioEnv none) [104, 105] (scenarioConfig "none" "") "trace"
        "json").uploads.length = 1 ∧
      (writeBuffer (scenarioEnv none) [104, 105] (scenarioConfig "none" "") "trace"
        "json").uploads.map Prod.snd =
        [{ Bucket := "telemetry"
           Key := "logs/year=2024/month=03/day=05/hour=09/otel-trace_123456789.json"
           Body := [104, 105]
           ContentEncoding := "" }] :=
  ⟨rfl,
    (writeBuffer_upload_input (scenarioEnv none) [104, 105] (scenarioConfig "none" "") "trace"
      "json" _ rfl).2 (fun h => absurd h (by decide)),
    by decide⟩

/-- C7: when compression and session construction succeed, `writeBuffer` issues
exactly one upload call and returns what that call returns: nil exactly when
the call succeeds, and the very error of the call when it fails. -/
theorem writeBuffer_single_upload (env : Env) (buf : List UInt8) (config : Config)
    (metadata format : String) (s : Session)
    (hcomp : config.S3Uploader.Compression = TypeGzip → (env.gzip.write buf).2 = none)
    (hsess : env.newSession (getSessionConfig config) = (some s, none)) :
    ∃ sess input,
      (writeBuffer env buf config metadata format).uploads = [(sess, input)] ∧
      (writeBuffer env buf config metadata format).outcome =
        GoResult.returned (env.upload sess input) ∧
      ((writeBuffer env buf config metadata format).outcome = GoResult.returned none ↔
        env.upload sess input = none) ∧
      ∀ e, env.upload sess input = some e →
        (writeBuffer env buf config metadata format).outcome = GoResult.returned (some e) := by
  have hprep : ∃ encoding body, prepareBody env buf config = Except.ok (encoding, body) := by
    by_cases hc : config.S3Uploader.Compression = TypeGzip
    · exact ⟨_, _, prepareBody_gzip env buf config hc (hcomp hc)⟩
    · exact ⟨_, _, prepareBody_plain env buf config hc⟩
  obtain ⟨encoding, body, hp⟩ := hprep
  obtain ⟨sess, hu, ho⟩ := writeBuffer_of_prepared env buf config metadata format s encoding body
    hp hsess
  refine ⟨sess, _, hu, ho, ?_, ?_⟩
  · rw [ho]
    constructor
    · intro h; injection h
    · intro h; rw [h]
  · intro e he
    rw [ho, he]

/-- Scenario D: the upload is denied; `writeBuffer` returns that error after a
single call. -/
theorem writeBuffer_single_upload_witness :
    (scenarioEnv (some { msg := "AccessDenied" })).newSession
        (getSessionConfig (scenarioConfig "none" "")) =
        (some { Config := getSessionConfig (scenarioConfig "none" "") }, none) ∧
      (∃ sess input,
        (writeBuffer (scenarioEnv (some { msg := "AccessDenied" })) [104, 105]
          (scenarioConfig "none" "") "trace" "json").uploads = [(sess, input)]) ∧
      (writeBuffer (scenarioEnv (some { msg := "AccessDenied" })) [104, 105]
        (scenarioConfig "none" "") "trace" "json").outcome =
        GoResult.returned (some { msg := "AccessDenied" }) :=
  ⟨rfl,
    (writeBuffer_single_upload (scenarioEnv (some { msg := "AccessDenied" })) [104, 105]
      (scenarioConfig "none" "") "trace" "json" _ (fun h => absurd h (by decide)) rfl).imp
      (fun _ h => h.imp (fun _ h2 => h2.1)),
    rfl⟩

end Awss3exporter
